import Mathlib

/-!
Verification of the query-compilation, paging, drill-navigation, tab-orchestration
and debounce behaviors of the philgeps dashboard explorer.

The definitions below are a shallow embedding of the two source modules that
implement these behaviors:
  - src/poc/httpfs.ts        (queryParquetPaged, queryTopRelated, queryContractsByEntity)
  - src/components/DataExplorer.tsx  (paging helpers, drill modal, debounce, tab state)
Machine numbers are modeled as Nat/Int/Rat; SQL queries built by the source are
modeled either as the strings the source interpolates (value escaping, WHERE
clauses) or as executable evaluators of the query the source text denotes
(grouped aggregation, select-list building with schema probing).
-/

namespace Philgeps

/-- The four drill dimensions, the TS union type EntityType in DataExplorer.tsx. -/
inductive Dim where
  | contractor
  | area
  | organization
  | category
deriving DecidableEq, Repr

/-- String form of a dimension, as stored in filter dim fields by the drill code. -/
def Dim.str : Dim → String
  | .contractor => "contractor"
  | .area => "area"
  | .organization => "organization"
  | .category => "category"

/-- The dimension-to-column map of queryTopRelated (httpfs.ts lines 104 to 112),
with its default branch returning contractor_name. -/
def relatedDimToCol : String → String
  | "contractor" => "contractor_name"
  | "area" => "area_of_delivery"
  | "organization" => "organization_name"
  | "category" => "business_category"
  | _ => "contractor_name"

/-- The dimension-to-column map of queryContractsByEntity (httpfs.ts lines 177
to 189), which also accepts already-mapped column names and defaults to the
input itself. -/
def contractsDimToCol : String → String
  | "contractor_name" => "contractor_name"
  | "area_of_delivery" => "area_of_delivery"
  | "organization_name" => "organization_name"
  | "business_category" => "business_category"
  | "contractor" => "contractor_name"
  | "area" => "area_of_delivery"
  | "organization" => "organization_name"
  | "category" => "business_category"
  | d => d

/-- Modelled from the spec (section 3): the fixed dimension-to-column table
that both query specializations are claimed to realize. -/
def specDimPairs : List (String × String) :=
  [("contractor", "contractor_name"),
   ("area", "area_of_delivery"),
   ("organization", "organization_name"),
   ("category", "business_category")]

/-- The single-quote character used in SQL string literals. -/
def quoteChar : Char := Char.ofNat 39

/-- The single-quote character as a string. -/
def quoteStr : String := String.singleton quoteChar

/-- Escaping of one character by the esc helpers of httpfs.ts (lines 132 and
206): a single quote is doubled, every other character is kept. -/
def escChar (c : Char) : List Char :=
  if c = quoteChar then [quoteChar, quoteChar] else [c]

/-- Value escaping of httpfs.ts: replace every single quote by two single
quotes, with no other rewriting. -/
def esc (v : String) : String :=
  String.mk ((v.data.map escChar).flatten)

/-- One equality predicate of the contracts listing WHERE clause
(httpfs.ts line 221). -/
def filterPredicate (f : String × String) : String :=
  contractsDimToCol f.1 ++ " = " ++ quoteStr ++ esc f.2 ++ quoteStr

/-- The combined WHERE clause of queryContractsByEntity (httpfs.ts line 222):
predicates joined with AND in filter-list order, empty when no filters. -/
def whereCombined (fs : List (String × String)) : String :=
  if fs.isEmpty then "" else "WHERE " ++ String.intercalate " AND " (fs.map filterPredicate)

/-- LIMIT and OFFSET of the data query of queryParquetPaged. -/
structure PagedQuery where
  limit : Nat
  offset : Nat
deriving DecidableEq, Repr

/-- Paging of queryParquetPaged (httpfs.ts lines 56 and 59): the executed query
uses LIMIT pageSize and OFFSET pageIndex * pageSize. -/
def mkPagedQuery (pageIndex pageSize : Nat) : PagedQuery :=
  { limit := pageSize, offset := pageIndex * pageSize }

/-- The main-table page size constant (DataExplorer.tsx line 56). -/
def mainPageSize : Nat := 10

/-- The Next button of the main table (DataExplorer.tsx lines 2208 to 2213)
advances the stored pageIndex by the page size, so the stored value is an item
offset. -/
def mainNextPageIndex (pageIndex : Nat) : Nat := pageIndex + mainPageSize

/-- getCurrentPage of DataExplorer.tsx line 63, on integer offsets: floor of
pageIndex over 10, plus one. -/
def getCurrentPageI (pageIndex : Int) : Int := Int.fdiv pageIndex 10 + 1

/-- getModalCurrentPage of DataExplorer.tsx line 67: floor of pageIndex over
20, plus one. -/
def getModalCurrentPageI (pageIndex : Int) : Int := Int.fdiv pageIndex 20 + 1

/-- The disabled condition of the contracts Previous button
(DataExplorer.tsx line 967). -/
def modalPrevDisabled (pageIndex : Int) : Bool := getModalCurrentPageI pageIndex == 0

/-- The click handler of the contracts Previous button (DataExplorer.tsx lines
947 to 966): when its guard passes it dispatches a listing query at the stored
offset minus 20; otherwise no dispatch. The guard calls getCurrentPage, the
main-table helper. -/
def modalPrevClick (pageIndex : Int) : Option Int :=
  if getCurrentPageI pageIndex > 0 then some (pageIndex - 20) else none

/-- Per-tab state of a related-entity tab (DrillModalData.tabs entries). -/
structure TabState where
  data : List String
  loading : Bool
  error : Option String
deriving DecidableEq, Repr

/-- State of the contracts tab (DrillModalData.tabs.contracts). -/
structure ContractsTab where
  data : List String
  loading : Bool
  error : Option String
  totalCount : Nat
  pageIndex : Int
deriving DecidableEq, Repr

/-- The tab map of a drill modal: a possibly-absent state per entity dimension
plus the contracts tab. -/
structure Tabs where
  related : Dim → Option TabState
  contracts : ContractsTab

/-- A drill modal context (DrillModalData): source dimension and value, tab
states, and an optional parent context forming the navigation stack. -/
inductive Modal where
  | mk (srcDim : Dim) (srcVal : String) (tabs : Tabs) (parent : Option Modal)

/-- Source dimension of a modal context. -/
def Modal.srcDim : Modal → Dim
  | .mk d _ _ _ => d

/-- Source value of a modal context. -/
def Modal.srcVal : Modal → String
  | .mk _ v _ _ => v

/-- Tab states of a modal context. -/
def Modal.tabs : Modal → Tabs
  | .mk _ _ t _ => t

/-- Parent of a modal context, none at the root. -/
def Modal.parent : Modal → Option Modal
  | .mk _ _ _ p => p

/-- The accumulated filter list derived from the parent chain, root first:
the while loops of DataExplorer.tsx (lines 492 to 497 and elsewhere) walk from
the leaf to the root, unshifting each (dim, value) pair to the front. -/
def Modal.breadcrumbFilters : Modal → List (String × String)
  | .mk d v _ none => [(d.str, v)]
  | .mk d v _ (some q) => q.breadcrumbFilters ++ [(d.str, v)]

/-- The tab map built on entering a drill context (DataExplorer.tsx lines 362
to 382 and 463 to 487): every complementary dimension gets a loading state with
empty rows, the source dimension gets no tab, and the contracts tab starts
loading at offset zero. -/
def initQueryTabs (srcDim : Dim) : Tabs :=
  { related := fun t =>
      if t = srcDim then none else some { data := [], loading := true, error := none }
    contracts := { data := [], loading := true, error := none, totalCount := 0, pageIndex := 0 } }

/-- A query dispatched by the tab load orchestrator. -/
inductive Dispatch where
  | related (src : Dim) (value : String) (tgt : Dim) (lim : Nat)
  | listing (filters : List (String × String)) (offset : Int) (pageSize : Nat) (orderBy : String)
deriving DecidableEq, Repr

/-- The complementary dimension set: all four dimensions minus the source
dimension (DataExplorer.tsx lines 359 to 360). -/
def complementDims (srcDim : Dim) : List Dim :=
  [Dim.contractor, Dim.area, Dim.organization, Dim.category].filter
    (fun t => decide (t ≠ srcDim))

/-- onDrill from the main table (DataExplorer.tsx lines 355 to 457): builds a
root modal with all tabs loading and dispatches one aggregation query per
complementary dimension (limit 10) plus one listing query with the single
source filter (offset 0, page size 20, default order). -/
def onDrill (srcDim : Dim) (val : String) : Modal × List Dispatch :=
  (Modal.mk srcDim val (initQueryTabs srcDim) none,
    ((complementDims srcDim).map (fun t => Dispatch.related srcDim val t 10)) ++
      [Dispatch.listing [(srcDim.str, val)] 0 20 "award_date DESC"])

/-- onModalDrill (DataExplorer.tsx lines 460 to 570): nests a new modal under
the current one with all tabs loading and dispatches the aggregation queries
plus one listing query with the full breadcrumb-derived filter list. -/
def onModalDrill (cur : Modal) (val : String) (d : Dim) : Modal × List Dispatch :=
  let m := Modal.mk d val (initQueryTabs d) (some cur)
  (m, ((complementDims d).map (fun t => Dispatch.related d val t 10)) ++
    [Dispatch.listing m.breadcrumbFilters 0 20 "award_date DESC"])

/-- goBack (DataExplorer.tsx lines 573 to 582): restores the stored parent
modal when one exists, else closes; it issues no queries. -/
def goBack (m : Modal) : Option Modal × List Dispatch :=
  (m.parent, [])

/-- All tab states of a tab map are in the loading state. -/
def allTabsLoading (t : Tabs) : Prop :=
  t.contracts.loading = true ∧ ∀ d ts, t.related d = some ts → ts.loading = true

/-- The catch handler of a related-entity tab load (DataExplorer.tsx lines 403
to 415 and 515 to 527): writes empty rows, loading false and the error message
to that tab only. -/
def failRelatedTab (t : Tabs) (d : Dim) (msg : String) : Tabs :=
  { t with related := fun x =>
      if x = d then some { data := [], loading := false, error := some msg } else t.related x }

/-- The catch handler of the contracts tab load in onDrill and onModalDrill
(DataExplorer.tsx lines 439 to 453 and 551 to 565). -/
def failContractsTab (t : Tabs) (msg : String) : Tabs :=
  { t with contracts :=
      { data := [], loading := false, error := some msg, totalCount := 0, pageIndex := 0 } }

/-- A completed contracts listing response, tagged with the dispatch order of
the query that produced it (gen): larger gen means dispatched later. -/
structure ListingResponse where
  gen : Nat
  rows : List String
  totalCount : Nat
  offset : Int
deriving DecidableEq, Repr

/-- The success path of debouncedModalContractsLoad (DataExplorer.tsx lines 326
to 337): the response is written to the contracts tab unconditionally, with no
check of any request token. -/
def applyListingResponse (_prev : ContractsTab) (r : ListingResponse) : ContractsTab :=
  { data := r.rows, loading := false, error := none,
    totalCount := r.totalCount, pageIndex := r.offset }

/-- Responses applied to the contracts tab in arrival order. -/
def applyResponses (s : ContractsTab) (arrivals : List ListingResponse) : ContractsTab :=
  arrivals.foldl applyListingResponse s

/-- The guarded behavior the claim asserts: when a superseded (earlier
dispatched) response arrives after a newer one, it is discarded and the state
keeps the newer response. -/
def staleResponsesDiscarded : Prop :=
  ∀ (s : ContractsTab) (rOld rNew : ListingResponse), rOld.gen < rNew.gen →
    (applyResponses s [rNew, rOld]).data = rNew.rows

/-- The reinitialization the claim asserts of goBack: a transition into the
parent context makes all its tab states loading and triggers at least one
query. -/
def goBackReinitializes : Prop :=
  ∀ (m p : Modal), (goBack m).1 = some p → allTabsLoading p.tabs ∧ (goBack m).2 ≠ []

/-- A parent modal whose tab states have finished loading. -/
def finishedParentModal : Modal :=
  Modal.mk Dim.contractor "ACME CORP"
    { related := fun _ => none
      contracts := { data := ["row0"], loading := false, error := none,
                     totalCount := 1, pageIndex := 0 } }
    none

/-- A child modal drilled one level below finishedParentModal. -/
def childModal : Modal :=
  Modal.mk Dim.area "Metro" (initQueryTabs Dim.area) (some finishedParentModal)

/-- Events of the debounce scheduler: arming a timer with recorded parameters
(debouncedLoad in DataExplorer.tsx lines 272 to 289, which clears any previous
timer), the timer firing, and cancellation (the unmount cleanup at lines 636
to 645). -/
inductive DebEvent where
  | schedule (p : Int)
  | fire
  | cancel
deriving DecidableEq, Repr

/-- One step of the debounce scheduler over (armed parameters, dispatches so
far): schedule replaces the armed timer with the new parameters, fire
dispatches the armed parameters once and disarms, cancel disarms. -/
def debStep (st : Option Int × List Int) : DebEvent → Option Int × List Int
  | .schedule p => (some p, st.2)
  | .fire =>
    match st.1 with
    | some p => (none, st.2 ++ [p])
    | none => (none, st.2)
  | .cancel => (none, st.2)

/-- Run the debounce scheduler from an armed state over an event list,
collecting dispatches. -/
def debRun (s : Option Int) (es : List DebEvent) : Option Int × List Int :=
  es.foldl debStep (s, [])

/-- A SQL value produced by the listing select list. -/
inductive SqlValue where
  | vstr (s : String)
  | vnum (n : Int)
  | vnull
deriving DecidableEq, Repr

/-- A select-list expression of the listing query: a column reference or a
literal default. -/
inductive SqlExpr where
  | col (name : String)
  | litStr (s : String)
  | litNum (n : Int)
  | litNull
deriving DecidableEq, Repr

/-- The select list built by queryContractsByEntity (httpfs.ts lines 223 to
238), given the column-availability probe obtained from PRAGMA table_info
(lines 213 to 219): each of the nine output columns is the source column when
present and a typed literal default when absent. -/
def buildSelectList (has : String → Bool) : List (String × SqlExpr) :=
  [("award_date", if has "award_date" then .col "award_date" else .litNull),
   ("contractor_name",
     if has "contractor_name" then .col "contractor_name" else .litStr ""),
   ("business_category",
     if has "business_category" then .col "business_category" else .litStr ""),
   ("organization_name",
     if has "organization_name" then .col "organization_name" else .litStr ""),
   ("area_of_delivery",
     if has "area_of_delivery" then .col "area_of_delivery" else .litStr ""),
   ("contract_value",
     if has "total_contract_amount" then .col "total_contract_amount" else .litNum 0),
   ("award_title", if has "award_title" then .col "award_title" else .litStr ""),
   ("notice_title", if has "notice_title" then .col "notice_title" else .litStr ""),
   ("contract_no", if has "contract_no" then .col "contract_no" else .litStr "")]

/-- The nine fixed output keys of the contracts listing, in select-list
order. -/
def outputKeys : List String :=
  ["award_date", "contractor_name", "business_category", "organization_name",
   "area_of_delivery", "contract_value", "award_title", "notice_title", "contract_no"]

/-- The source column probed for an output key: contract_value is an alias of
total_contract_amount, every other key names its own column. -/
def sourceColFor (k : String) : String :=
  if k = "contract_value" then "total_contract_amount" else k

/-- The literal default substituted for an absent column: NULL for the date,
zero for the value, the empty string for the text columns. -/
def defaultExprFor (k : String) : SqlExpr :=
  if k = "award_date" then .litNull
  else if k = "contract_value" then .litNum 0
  else .litStr ""

/-- Evaluate one select-list expression against a source row. -/
def evalSqlExpr (row : String → SqlValue) : SqlExpr → SqlValue
  | .col n => row n
  | .litStr s => .vstr s
  | .litNum n => .vnum n
  | .litNull => .vnull

/-- One output row of the contracts listing: the select list evaluated against
a source row, keyed by output column name. -/
def evalListingRow (has : String → Bool) (row : String → SqlValue) :
    List (String × SqlValue) :=
  (buildSelectList has).map (fun ke => (ke.1, evalSqlExpr row ke.2))

/-- A line-level fact row of the facts parquet, restricted to the columns the
aggregation SQL of queryTopRelated references: the four dimension columns
(nullable), the contract amount measure and the award date. -/
structure Fact where
  contractor_name : Option String
  area_of_delivery : Option String
  organization_name : Option String
  business_category : Option String
  total_contract_amount : Rat
  award_date : Int
deriving DecidableEq, Repr

/-- Value of the column a dimension maps to (per relatedDimToCol), in a fact
row. -/
def colOf (d : Dim) (f : Fact) : Option String :=
  match d with
  | .contractor => f.contractor_name
  | .area => f.area_of_delivery
  | .organization => f.organization_name
  | .category => f.business_category

/-- One output row of queryTopRelated: the target entity and its aggregates. -/
structure AggRow where
  entity : String
  contractCount : Nat
  totalValue : Rat
  averageValue : Rat
  firstDate : Int
  lastDate : Int
deriving DecidableEq, Repr

/-- The WHERE clause of the aggregation SQL (httpfs.ts lines 143 to 144):
facts whose source column equals the requested value and whose target column
is not null. In SQL an equality against a NULL column is not satisfied, so the
source column must be present and equal. -/
def matchingFacts (facts : List Fact) (s : Dim) (v : String) (t : Dim) : List Fact :=
  facts.filter (fun f => decide (colOf s f = some v) && (colOf t f).isSome)

/-- The GROUP BY 1 group of one target entity value. -/
def groupOf (matching : List Fact) (t : Dim) (k : String) : List Fact :=
  matching.filter (fun f => decide (colOf t f = some k))

/-- MIN over a date list, zero on the empty list (groups are nonempty). -/
def minD : List Int → Int
  | [] => 0
  | d :: ds => ds.foldl min d

/-- MAX over a date list, zero on the empty list (groups are nonempty). -/
def maxD : List Int → Int
  | [] => 0
  | d :: ds => ds.foldl max d

/-- The aggregate row of one target entity value: COUNT, SUM, AVG of the
amount and MIN, MAX of the award date over its group (httpfs.ts lines 135 to
141). -/
def aggFor (matching : List Fact) (t : Dim) (k : String) : AggRow :=
  { entity := k
    contractCount := (groupOf matching t k).length
    totalValue := ((groupOf matching t k).map Fact.total_contract_amount).sum
    averageValue :=
      ((groupOf matching t k).map Fact.total_contract_amount).sum /
        ((groupOf matching t k).length : Rat)
    firstDate := minD ((groupOf matching t k).map Fact.award_date)
    lastDate := maxD ((groupOf matching t k).map Fact.award_date) }

/-- ORDER BY total_contract_value DESC as a relation on aggregate rows. -/
def byValueDesc (a b : AggRow) : Prop := b.totalValue ≤ a.totalValue

instance : DecidableRel byValueDesc := fun a b =>
  inferInstanceAs (Decidable (b.totalValue ≤ a.totalValue))

instance : IsTotal AggRow byValueDesc :=
  ⟨fun a b => le_total b.totalValue a.totalValue⟩

instance : IsTrans AggRow byValueDesc :=
  ⟨fun _ _ _ hab hbc => le_trans hbc hab⟩

/-- Semantics of the aggregation SQL executed by queryTopRelated (httpfs.ts
lines 133 to 148): group the matching facts by target entity, aggregate each
group, order by total value descending and truncate to the limit. -/
def queryTopRelated (facts : List Fact) (s : Dim) (v : String) (t : Dim) (lim : Nat) :
    List AggRow :=
  (List.insertionSort byValueDesc
    (((matchingFacts facts s v t).filterMap (colOf t)).dedup.map
      (aggFor (matchingFacts facts s v t) t))).take lim

/-- A one-row facts table used to instantiate the aggregation query. -/
def sampleFacts : List Fact :=
  [{ contractor_name := some "ACME CORP", area_of_delivery := some "Metro",
     organization_name := none, business_category := none,
     total_contract_amount := 100, award_date := 5 }]

end Philgeps

namespace Philgeps

/-- C10: the dimension-to-column mapping used by the entity aggregation query
and the one used by the contract listing query agree on the four dimensions and
both realize the fixed table contractor to contractor_name, area to
area_of_delivery, organization to organization_name, category to
business_category. -/
theorem dim_mappings_agree (d c : String) (h : (d, c) ∈ specDimPairs) :
    relatedDimToCol d = c ∧ contractsDimToCol d = c := by
  fin_cases h <;> exact ⟨rfl, rfl⟩

/-- C10 witness: the two mappings agree at the contractor dimension. -/
theorem dim_mappings_agree_witness :
    relatedDimToCol "contractor" = "contractor_name" ∧
      contractsDimToCol "contractor" = "contractor_name" :=
  dim_mappings_agree "contractor" "contractor_name" (by simp [specDimPairs])

/-- C3: for every nonempty drill-accumulated filter list, the contracts
listing query compiles a WHERE clause that conjoins, in filter-list (root
first) order, one equality predicate per filter of the form column = value
with embedded single quotes doubled; two sequential drills on contractor
ACME CORP then area Metro compile to the conjunction of contractor_name =
ACME CORP and area_of_delivery = Metro, and a value containing a single quote
compiles with that quote doubled. -/
theorem listing_where_clause :
    (∀ (f : String × String) (fs : List (String × String)),
      whereCombined (f :: fs) =
        "WHERE " ++ String.intercalate " AND "
          ((f :: fs).map (fun g => contractsDimToCol g.1 ++ " = " ++ quoteStr ++ esc g.2 ++ quoteStr))) ∧
    whereCombined
        ((onModalDrill (onDrill Dim.contractor "ACME CORP").1 "Metro" Dim.area).1.breadcrumbFilters) =
      "WHERE contractor_name = " ++ quoteStr ++ "ACME CORP" ++ quoteStr ++
        " AND area_of_delivery = " ++ quoteStr ++ "Metro" ++ quoteStr ∧
    filterPredicate ("contractor", "O" ++ quoteStr ++ "BRIEN") =
      "contractor_name = " ++ quoteStr ++ "O" ++ quoteStr ++ quoteStr ++ "BRIEN" ++ quoteStr := by
  refine ⟨fun f fs => rfl, ?_, ?_⟩ <;> rfl

/-- C1 (bug evaluation): after one Next click the main table stores the item
offset 10 (a multiple of the page size 10), but queryParquetPaged multiplies
that offset by the page size again, executing OFFSET 100 instead of the
OFFSET 10 the claim requires. -/
theorem paged_fetch_offset_multiplied :
    mainNextPageIndex 0 = 10 ∧ 10 % mainPageSize = 0 ∧
      (mkPagedQuery 10 mainPageSize).limit = 10 ∧
      (mkPagedQuery 10 mainPageSize).offset = 100 ∧
      ¬ (mkPagedQuery 10 mainPageSize).offset = 10 := by
  decide

/-- C8 (bug evaluation): on the first contracts page (stored offset 0) the
Previous button is not disabled, its guard passes because getCurrentPage is
never zero, and a listing query is dispatched with the negative offset -20,
contradicting the claimed itemOffset nonnegativity. -/
theorem contracts_prev_negative_offset :
    modalPrevDisabled 0 = false ∧ modalPrevClick 0 = some (-20) ∧ ((-20 : Int) < 0) := by
  decide

/-- C2 counterexample: the code has no request-generation token; when the
response of an earlier-dispatched (superseded) listing query arrives after the
newer one, it is written to the contracts tab, overwriting the newer state. -/
theorem stale_response_overwrites : ¬ staleResponsesDiscarded := by
  intro h
  have hc := h { data := [], loading := true, error := none, totalCount := 0, pageIndex := 0 }
      { gen := 1, rows := ["A"], totalCount := 1, offset := 0 }
      { gen := 2, rows := ["B"], totalCount := 1, offset := 0 } (by decide)
  exact absurd hc (by decide)

/-- C2 (amended): every response is applied unconditionally in arrival order,
so after all responses arrive the contracts tab state is exactly that of the
last-arrived response, regardless of dispatch order. -/
theorem listing_state_is_last_arrival (s : ContractsTab) (rs : List ListingResponse)
    (rLast : ListingResponse) :
    applyResponses s (rs ++ [rLast]) =
      { data := rLast.rows, loading := false, error := none,
        totalCount := rLast.totalCount, pageIndex := rLast.offset } := by
  rw [applyResponses, List.foldl_append]
  rfl

/-- Folding only schedule events arms the last recorded parameters and
dispatches nothing. -/
theorem debSchedulesFold (ps : List Int) (p : Int) :
    ∀ (s : Option Int) (ds : List Int),
      ((ps ++ [p]).map DebEvent.schedule).foldl debStep (s, ds) = (some p, ds) := by
  induction ps with
  | nil => intro s ds; rfl
  | cons q ps ih => intro s ds; exact ih (some q) ds

/-- C5: invoking schedule any positive number of times within the quiet window
and then letting the timer fire produces exactly one dispatch, with the
parameters of the last invocation; and once cancelled, a timer firing
dispatches nothing. -/
theorem debounce_last_wins :
    (∀ (ps : List Int) (p : Int),
      debRun none ((ps ++ [p]).map DebEvent.schedule ++ [DebEvent.fire]) = (none, [p])) ∧
    (∀ s : Option Int, (debRun s [DebEvent.cancel, DebEvent.fire]).2 = []) := by
  constructor
  · intro ps p
    unfold debRun
    rw [List.foldl_append, debSchedulesFold ps p none []]
    rfl
  · intro s
    rfl

/-- C7 counterexample: goBack restores the stored parent modal unchanged and
issues no query, so a transition into the parent context neither reinitializes
its tab states to loading nor triggers the tab load orchestrator. -/
theorem goBack_keeps_parent_state : ¬ goBackReinitializes := by
  intro h
  have hc := h childModal finishedParentModal rfl
  have hload : (false : Bool) = true := hc.1.1
  exact absurd hload (by decide)

/-- C7 (amended): drill transitions (onDrill and onModalDrill) initialize all
tab states of the entered context to loading and trigger tab loads, while
goBack transitions to the stored parent context with its previous tab states
unchanged and triggers no load. -/
theorem drill_reinitializes_goBack_restores :
    (∀ (d : Dim) (v : String),
      allTabsLoading (onDrill d v).1.tabs ∧ (onDrill d v).2 ≠ []) ∧
    (∀ (m : Modal) (v : String) (d : Dim),
      allTabsLoading (onModalDrill m v d).1.tabs ∧ (onModalDrill m v d).2 ≠ []) ∧
    (∀ m : Modal, (goBack m).1 = m.parent ∧ (goBack m).2 = []) := by
  have hinit : ∀ d : Dim, allTabsLoading (initQueryTabs d) := by
    intro d
    refine ⟨rfl, fun t ts h => ?_⟩
    unfold initQueryTabs at h
    dsimp at h
    split at h
    · exact absurd h (by simp)
    · injection h with h2
      rw [← h2]
  refine ⟨fun d v => ⟨hinit d, by simp [onDrill]⟩,
    fun m v d => ⟨hinit d, by simp [onModalDrill]⟩,
    fun m => ⟨rfl, rfl⟩⟩

/-- C7 witness: a concrete drill enters with the contracts tab loading and a
complementary tab loading, and goBack on a concrete child issues no query. -/
theorem drill_reinitializes_goBack_restores_witness :
    (onDrill Dim.contractor "ACME CORP").1.tabs.contracts.loading = true ∧
      ({ data := [], loading := true, error := none } : TabState).loading = true ∧
      (goBack childModal).2 = [] :=
  ⟨(drill_reinitializes_goBack_restores.1 Dim.contractor "ACME CORP").1.1,
   (drill_reinitializes_goBack_restores.1 Dim.contractor "ACME CORP").1.2 Dim.area
     { data := [], loading := true, error := none } rfl,
   (drill_reinitializes_goBack_restores.2.2 childModal).2⟩

/-- C4: whatever columns the registered facts source offers, the listing
select list is total (never fails) and yields the nine fixed output keys in
every row; each output key whose probed source column is absent carries the
typed literal default of that column. -/
theorem listing_schema_drift_defaults (has : String → Bool) (row : String → SqlValue) :
    (evalListingRow has row).map Prod.fst = outputKeys ∧
      (∀ k, k ∈ outputKeys → has (sourceColFor k) = false →
        (evalListingRow has row).lookup k = some (evalSqlExpr row (defaultExprFor k))) := by
  refine ⟨rfl, fun k hk hfalse => ?_⟩
  fin_cases hk <;>
    simp [sourceColFor] at hfalse <;>
    simp [evalListingRow, buildSelectList, List.lookup, hfalse, defaultExprFor, evalSqlExpr]

/-- C4 witness: against a source with no columns at all, every output row
still has the nine keys, and the contract value key carries the literal
zero default. -/
theorem listing_schema_drift_defaults_witness :
    (evalListingRow (fun _ => false) (fun _ => SqlValue.vnull)).map Prod.fst = outputKeys ∧
      (evalListingRow (fun _ => false) (fun _ => SqlValue.vnull)).lookup "contract_value" =
        some (SqlValue.vnum 0) :=
  ⟨(listing_schema_drift_defaults (fun _ => false) (fun _ => SqlValue.vnull)).1,
   (listing_schema_drift_defaults (fun _ => false) (fun _ => SqlValue.vnull)).2
     "contract_value" (by simp [outputKeys]) rfl⟩

/-- Folding min either returns the initial value or an element of the list. -/
theorem foldlMinChoice (ds : List Int) :
    ∀ a : Int, ds.foldl min a = a ∨ ds.foldl min a ∈ ds := by
  induction ds with
  | nil => intro a; exact Or.inl rfl
  | cons d ds ih =>
    intro a
    rcases ih (min a d) with h | h
    · rcases min_choice a d with hm | hm
      · exact Or.inl (by rw [List.foldl_cons, h, hm])
      · refine Or.inr ?_
        rw [List.foldl_cons, h, hm]
        exact List.mem_cons_self d ds
    · exact Or.inr (List.mem_cons_of_mem d (by rwa [List.foldl_cons]))

/-- Folding min is bounded by the initial value. -/
theorem foldlMinLeInit (ds : List Int) : ∀ a : Int, ds.foldl min a ≤ a := by
  induction ds with
  | nil => intro a; exact le_refl a
  | cons d ds ih =>
    intro a
    rw [List.foldl_cons]
    exact le_trans (ih (min a d)) (min_le_left a d)

/-- Folding min is bounded by every element of the list. -/
theorem foldlMinLeMem (ds : List Int) :
    ∀ (a x : Int), x ∈ ds → ds.foldl min a ≤ x := by
  induction ds with
  | nil => intro a x hx; cases hx
  | cons d ds ih =>
    intro a x hx
    rw [List.foldl_cons]
    rcases List.mem_cons.mp hx with rfl | hx2
    · exact le_trans (foldlMinLeInit ds (min a x)) (min_le_right a x)
    · exact ih (min a d) x hx2

/-- MIN over a nonempty date list is one of the dates. -/
theorem minD_mem (l : List Int) (h : l ≠ []) : minD l ∈ l := by
  cases l with
  | nil => exact absurd rfl h
  | cons d ds =>
    show ds.foldl min d ∈ d :: ds
    rcases foldlMinChoice ds d with h2 | h2
    · rw [h2]; exact List.mem_cons_self d ds
    · exact List.mem_cons_of_mem d h2

/-- MIN over a date list bounds every date in it. -/
theorem minD_le (l : List Int) (x : Int) (hx : x ∈ l) : minD l ≤ x := by
  cases l with
  | nil => cases hx
  | cons d ds =>
    show ds.foldl min d ≤ x
    rcases List.mem_cons.mp hx with rfl | h2
    · exact foldlMinLeInit ds x
    · exact foldlMinLeMem ds d x h2

/-- Folding max either returns the initial value or an element of the list. -/
theorem foldlMaxChoice (ds : List Int) :
    ∀ a : Int, ds.foldl max a = a ∨ ds.foldl max a ∈ ds := by
  induction ds with
  | nil => intro a; exact Or.inl rfl
  | cons d ds ih =>
    intro a
    rcases ih (max a d) with h | h
    · rcases max_choice a d with hm | hm
      · exact Or.inl (by rw [List.foldl_cons, h, hm])
      · refine Or.inr ?_
        rw [List.foldl_cons, h, hm]
        exact List.mem_cons_self d ds
    · exact Or.inr (List.mem_cons_of_mem d (by rwa [List.foldl_cons]))

/-- Folding max dominates the initial value. -/
theorem foldlMaxGeInit (ds : List Int) : ∀ a : Int, a ≤ ds.foldl max a := by
  induction ds with
  | nil => intro a; exact le_refl a
  | cons d ds ih =>
    intro a
    rw [List.foldl_cons]
    exact le_trans (le_max_left a d) (ih (max a d))

/-- Folding max dominates every element of the list. -/
theorem foldlMaxGeMem (ds : List Int) :
    ∀ (a x : Int), x ∈ ds → x ≤ ds.foldl max a := by
  induction ds with
  | nil => intro a x hx; cases hx
  | cons d ds ih =>
    intro a x hx
    rw [List.foldl_cons]
    rcases List.mem_cons.mp hx with rfl | hx2
    · exact le_trans (le_max_right a x) (foldlMaxGeInit ds (max a x))
    · exact ih (max a d) x hx2

/-- MAX over a nonempty date list is one of the dates. -/
theorem maxD_mem (l : List Int) (h : l ≠ []) : maxD l ∈ l := by
  cases l with
  | nil => exact absurd rfl h
  | cons d ds =>
    show ds.foldl max d ∈ d :: ds
    rcases foldlMaxChoice ds d with h2 | h2
    · rw [h2]; exact List.mem_cons_self d ds
    · exact List.mem_cons_of_mem d h2

/-- MAX over a date list dominates every date in it. -/
theorem maxD_ge (l : List Int) (x : Int) (hx : x ∈ l) : x ≤ maxD l := by
  cases l with
  | nil => cases hx
  | cons d ds =>
    show x ≤ ds.foldl max d
    rcases List.mem_cons.mp hx with rfl | h2
    · exact foldlMaxGeInit ds x
    · exact foldlMaxGeMem ds d x h2

/-- C6: the aggregation query returns at most limit rows, pairwise distinct
non-null target entities each witnessed by a matching fact, ordered by total
value descending, and every row carries the count, sum and average of the
measure and the minimum and maximum award date of its group. -/
theorem topRelated_spec (facts : List Fact) (s : Dim) (v : String) (t : Dim) (lim : Nat) :
    (queryTopRelated facts s v t lim).length ≤ lim ∧
      (queryTopRelated facts s v t lim).Pairwise (fun a b => a.entity ≠ b.entity) ∧
      (queryTopRelated facts s v t lim).Sorted byValueDesc ∧
      (∀ r, r ∈ queryTopRelated facts s v t lim →
        (∃ f, f ∈ facts ∧ colOf s f = some v ∧ colOf t f = some r.entity) ∧
        r.contractCount = (groupOf (matchingFacts facts s v t) t r.entity).length ∧
        r.totalValue =
          ((groupOf (matchingFacts facts s v t) t r.entity).map
            Fact.total_contract_amount).sum ∧
        r.averageValue = r.totalValue / (r.contractCount : Rat) ∧
        r.firstDate ∈ (groupOf (matchingFacts facts s v t) t r.entity).map Fact.award_date ∧
        (∀ x ∈ (groupOf (matchingFacts facts s v t) t r.entity).map Fact.award_date,
          r.firstDate ≤ x) ∧
        r.lastDate ∈ (groupOf (matchingFacts facts s v t) t r.entity).map Fact.award_date ∧
        (∀ x ∈ (groupOf (matchingFacts facts s v t) t r.entity).map Fact.award_date,
          x ≤ r.lastDate)) := by
  have hperm :
      List.Perm
        (List.insertionSort byValueDesc
          (((matchingFacts facts s v t).filterMap (colOf t)).dedup.map
            (aggFor (matchingFacts facts s v t) t)))
        (((matchingFacts facts s v t).filterMap (colOf t)).dedup.map
          (aggFor (matchingFacts facts s v t) t)) :=
    List.perm_insertionSort _ _
  refine ⟨?_, ?_, ?_, ?_⟩
  · calc (queryTopRelated facts s v t lim).length
        = min lim _ := List.length_take lim _
      _ ≤ lim := min_le_left _ _
  · have hnodup : (((matchingFacts facts s v t).filterMap (colOf t)).dedup).Nodup :=
      List.nodup_dedup _
    have hpairKeys :
        (((matchingFacts facts s v t).filterMap (colOf t)).dedup.map
          (aggFor (matchingFacts facts s v t) t)).Pairwise
          (fun a b => a.entity ≠ b.entity) := by
      rw [List.pairwise_map]
      exact hnodup
    have hpairSorted := (hperm.pairwise_iff (fun hxy hyx => hxy hyx.symm)).mpr hpairKeys
    exact hpairSorted.sublist (List.take_sublist _ _)
  · exact (List.sorted_insertionSort byValueDesc _).sublist (List.take_sublist _ _)
  · intro r hr
    have hr1 : r ∈ List.insertionSort byValueDesc
        (((matchingFacts facts s v t).filterMap (colOf t)).dedup.map
          (aggFor (matchingFacts facts s v t) t)) :=
      List.mem_of_mem_take hr
    have hr2 := hperm.mem_iff.mp hr1
    obtain ⟨k, hk, hEq⟩ := List.mem_map.mp hr2
    obtain ⟨f, hfM, hft⟩ := List.mem_filterMap.mp (List.mem_dedup.mp hk)
    have hfFacts := List.mem_filter.mp hfM
    have hsv : colOf s f = some v := by
      have hb := hfFacts.2
      rw [Bool.and_eq_true, decide_eq_true_iff] at hb
      exact hb.1
    subst hEq
    have hfG : f ∈ groupOf (matchingFacts facts s v t) t k := by
      refine List.mem_filter.mpr ⟨hfM, ?_⟩
      rw [decide_eq_true_iff]
      exact hft
    have hGne :
        (groupOf (matchingFacts facts s v t) t k).map Fact.award_date ≠ [] := by
      intro hnil
      rw [List.map_eq_nil_iff] at hnil
      rw [hnil] at hfG
      cases hfG
    refine ⟨⟨f, hfFacts.1, hsv, hft⟩, rfl, rfl, rfl, ?_, ?_, ?_, ?_⟩
    · exact minD_mem _ hGne
    · exact fun x hx => minD_le _ x hx
    · exact maxD_mem _ hGne
    · exact fun x hx => maxD_ge _ x hx

/-- C6 witness: on a one-fact table, the aggregation query for contractor
ACME CORP toward the area dimension stays within the limit and its Metro row
is witnessed by a matching fact. -/
theorem topRelated_spec_witness :
    (queryTopRelated sampleFacts Dim.contractor "ACME CORP" Dim.area 10).length ≤ 10 ∧
      (∃ f, f ∈ sampleFacts ∧ colOf Dim.contractor f = some "ACME CORP" ∧
        colOf Dim.area f =
          some (aggFor (matchingFacts sampleFacts Dim.contractor "ACME CORP" Dim.area)
            Dim.area "Metro").entity) :=
  have h := topRelated_spec sampleFacts Dim.contractor "ACME CORP" Dim.area 10
  ⟨h.1,
   (h.2.2.2 (aggFor (matchingFacts sampleFacts Dim.contractor "ACME CORP" Dim.area)
       Dim.area "Metro") (List.mem_cons_self _ _)).1⟩

/-- C9: a failing tab query writes empty rows, loading false and the error
message to its own tab only; every sibling tab state (and the contracts tab
for a related-tab failure, and every related tab for a contracts failure) is
left unchanged. -/
theorem tab_failure_isolated (t : Tabs) (d : Dim) (msg : String) :
    (failRelatedTab t d msg).related d =
        some { data := [], loading := false, error := some msg } ∧
      (∀ x, x ≠ d → (failRelatedTab t d msg).related x = t.related x) ∧
      (failRelatedTab t d msg).contracts = t.contracts ∧
      (failContractsTab t msg).contracts =
        { data := [], loading := false, error := some msg, totalCount := 0, pageIndex := 0 } ∧
      (∀ x, (failContractsTab t msg).related x = t.related x) := by
  refine ⟨by simp [failRelatedTab], fun x hx => by simp [failRelatedTab, hx], rfl, rfl,
    fun x => rfl⟩

/-- C9 witness: failing the area tab leaves the organization tab and the
contracts tab untouched. -/
theorem tab_failure_isolated_witness :
    (failRelatedTab (initQueryTabs Dim.contractor) Dim.area "boom").related Dim.organization =
        (initQueryTabs Dim.contractor).related Dim.organization ∧
      (failRelatedTab (initQueryTabs Dim.contractor) Dim.area "boom").contracts =
        (initQueryTabs Dim.contractor).contracts :=
  ⟨(tab_failure_isolated (initQueryTabs Dim.contractor) Dim.area "boom").2.1 Dim.organization
      (by decide),
   (tab_failure_isolated (initQueryTabs Dim.contractor) Dim.area "boom").2.2.1⟩

end Philgeps
